import Mathlib

/-!
Verification of the coffee-order builder in src/main.py.

The Python module defines an immutable CoffeeOrder dataclass and a mutable
fluent CoffeeOrderBuilder with validated setters, a price computation and a
description generator.  This file is a shallow embedding: Python floats are
modelled as exact rationals, the Python set of syrups as a duplicate-free
list (order never observable: both the build result and the description sort
it), a raised ValueError as an error value naming the raise site, and each
mutating method as a function from the builder state to the pair of the
optional raised error and the state after the call (Python raises before any
assignment, which the embedding makes checkable).
-/

namespace Coffee

/-- Lowercasing of one character, as Python str.lower acts on the alphabets
appearing in this program: ASCII letters and the Russian alphabet
(А..Я map to а..я, Ё maps to ё). Other characters are unchanged. -/
def pyLowerChar (c : Char) : Char :=
  if c.toNat ≥ 65 ∧ c.toNat ≤ 90 then Char.ofNat (c.toNat + 32)
  else if c.toNat ≥ 0x410 ∧ c.toNat ≤ 0x42F then Char.ofNat (c.toNat + 0x20)
  else if c.toNat = 0x401 then Char.ofNat (c.toNat + 0x50)
  else c

/-- Python name.lower(), restricted to the alphabets this program uses. -/
def pyLower (s : String) : String := ⟨s.data.map pyLowerChar⟩

/-- Lexicographic comparison of character lists by code point, the order
Python uses to compare strings. -/
def charListLe : List Char → List Char → Bool
  | [], _ => true
  | _ :: _, [] => false
  | a :: as, b :: bs =>
    if a.toNat < b.toNat then true
    else if b.toNat < a.toNat then false
    else charListLe as bs

/-- Python string comparison a <= b (code-point lexicographic). -/
def pyStrLe (a b : String) : Bool := charListLe a.data b.data

/-- Insertion of a string into a sorted list, keeping it sorted. -/
def insertSorted (x : String) : List String → List String
  | [] => [x]
  | y :: ys => if pyStrLe x y then x :: y :: ys else y :: insertSorted x ys

/-- Python sorted() on a list of strings (insertion sort; stability is
irrelevant here because the inputs are duplicate-free). -/
def sortStrings : List String → List String
  | [] => []
  | x :: xs => insertSorted x (sortStrings xs)

/-- Python sep.join(parts). -/
def joinSep (sep : String) : List String → String
  | [] => ""
  | [x] => x
  | x :: y :: ys => x ++ sep ++ joinSep sep (y :: ys)

/-- Rounding of a rational to the nearest integer, ties to even: the rule of
Python round(). Every price the program produces is an exact multiple of
1/100, so after the scaling in round2 the tie branch is never taken. -/
def roundHalfEven (q : ℚ) : ℤ :=
  let f : ℤ := ⌊q⌋
  let fr : ℚ := q - f
  if fr < 1/2 then f
  else if 1/2 < fr then f + 1
  else if f % 2 = 0 then f else f + 1

/-- Python round(price, 2). -/
def round2 (q : ℚ) : ℚ := (roundHalfEven (q * 100) : ℚ) / 100

/-- Values of the CoffeeBase enum (src/main.py lines 11-16). -/
def baseValues : List String := ["espresso", "americano", "latte", "cappuccino"]

/-- Values of the CoffeeSize enum (src/main.py lines 19-23). -/
def sizeValues : List String := ["small", "medium", "large"]

/-- Values of the MilkType enum (src/main.py lines 26-32). -/
def milkValues : List String := ["none", "whole", "skim", "oat", "soy"]

/-- The BASE_PRICES dict (src/main.py lines 78-83), as an association list. -/
def BASE_PRICES : List (String × ℚ) :=
  [("espresso", 200), ("americano", 250), ("latte", 300), ("cappuccino", 320)]

/-- The SIZE_MULTIPLIERS dict (src/main.py lines 86-90); the floats 1.0, 1.2,
1.4 modelled as exact rationals. -/
def SIZE_MULTIPLIERS : List (String × ℚ) :=
  [("small", 1), ("medium", 6/5), ("large", 7/5)]

/-- The MILK_PRICES dict (src/main.py lines 93-99). -/
def MILK_PRICES : List (String × ℚ) :=
  [("none", 0), ("whole", 30), ("skim", 30), ("oat", 60), ("soy", 50)]

/-- SYRUP_PRICE = 40 (src/main.py line 102). -/
def SYRUP_PRICE : ℚ := 40

/-- ICED_PRICE = 0.2 (src/main.py line 105), the float modelled exactly. -/
def ICED_PRICE : ℚ := 1/5

/-- MAX_SUGAR = 5 (src/main.py line 108). -/
def MAX_SUGAR : ℤ := 5

/-- MAX_SYRUPS = 4 (src/main.py line 109). -/
def MAX_SYRUPS : ℕ := 4

/-- Python truthiness test `not x` for an Optional[str] field: None and the
empty string are falsy. -/
def optFalsy : Option String → Bool
  | none => true
  | some s => s == ""

/-- One value per raise site of the module; Python raises ValueError with the
message given by pyMessage (keyError stands for the KeyError a dict lookup
with an absent key would raise inside _calculate_price; that situation is
unreachable through the public setters). -/
inductive PyErr where
  | invalidBase (v : String)
  | invalidSize (v : String)
  | invalidMilk (v : String)
  | syrupLimit
  | sugarRange
  | missingBase
  | missingSize
  | sugarLimitBuild
  | syrupLimitBuild
  | keyError
deriving DecidableEq

/-- The message text of each raise site (src/main.py lines 128, 135, 142,
149, 156, 233, 236, 240, 243), with the Python list repr of the allowed
values rendered literally. -/
def pyMessage : PyErr → String
  | .invalidBase v => "Недопустимая основа: " ++ v ++
      ". Допустимо: [\x27espresso\x27, \x27americano\x27, \x27latte\x27, \x27cappuccino\x27]"
  | .invalidSize v => "Недопустимый размер: " ++ v ++
      ". Допустимо: [\x27small\x27, \x27medium\x27, \x27large\x27]"
  | .invalidMilk v => "Недопустимый тип молока: " ++ v ++
      ". Допустимо: [\x27none\x27, \x27whole\x27, \x27skim\x27, \x27oat\x27, \x27soy\x27]"
  | .syrupLimit => "Нельзя добавить больше 4 сиропов"
  | .sugarRange => "Сахар должен быть от 0 до 5 чайных ложек"
  | .missingBase => "Не указана основа кофе (base)"
  | .missingSize => "Не указан размер кофе (size)"
  | .sugarLimitBuild => "Сахар не может превышать 5 ложек"
  | .syrupLimitBuild => "Количество сиропов не может превышать 4"
  | .keyError => "KeyError"

/-- The immutable CoffeeOrder dataclass (src/main.py lines 35-57), with the
same field defaults. -/
structure CoffeeOrder where
  base : String
  size : String
  milk : String := "none"
  syrups : List String := []
  sugar : ℤ := 0
  iced : Bool := false
  price : ℚ := 0
  description : String := ""
deriving DecidableEq

/-- Rendering of a float value the way Python str() prints it, for the
nonnegative terminating decimals produced as prices (an integral float prints
with a trailing .0, e.g. 200.0; one or two fractional digits print as such,
e.g. 528.2). Rationals outside that shape never arise as prices. -/
def floatRepr (q : ℚ) : String :=
  let s := if q < 0 then "-" else ""
  let a := if q < 0 then -q else q
  if a.den = 1 then s ++ toString a.num ++ ".0"
  else if (a * 10).den = 1 then
    s ++ toString ⌊a⌋ ++ "." ++ toString (⌊a * 10⌋ % 10)
  else if (a * 100).den = 1 then
    s ++ toString ⌊a⌋ ++ "." ++ toString (⌊a * 100⌋ % 100 / 10) ++ toString (⌊a * 100⌋ % 10)
  else s ++ toString a.num ++ "/" ++ toString a.den

/-- CoffeeOrder.__str__ (src/main.py lines 59-63): the description when it is
non-empty (Python truthiness), else the fallback with the price. -/
def CoffeeOrder.pyStr (o : CoffeeOrder) : String :=
  if o.description ≠ "" then o.description
  else o.size ++ " " ++ o.base ++ " - " ++ floatRepr o.price ++ "₽"

/-- The mutable state of CoffeeOrderBuilder: the six fields assigned in
reset (src/main.py lines 115-123). The Python set of syrups is modelled as a
duplicate-free list. -/
structure Builder where
  base : Option String
  size : Option String
  milk : String
  syrups : List String
  sugar : ℤ
  iced : Bool
deriving DecidableEq

/-- The state reset installs and __init__ starts from (src/main.py 111-123). -/
def Builder.init : Builder :=
  { base := none, size := none, milk := "none", syrups := [], sugar := 0, iced := false }

/-- reset (src/main.py lines 115-123): every field back to its default; never
raises. -/
def reset (_b : Builder) : Option PyErr × Builder := (none, Builder.init)

/-- set_base (src/main.py lines 125-130): validate against the enum values,
then assign. -/
def set_base (b : Builder) (base : String) : Option PyErr × Builder :=
  if base ∉ baseValues then (some (.invalidBase base), b)
  else (none, { b with base := some base })

/-- set_size (src/main.py lines 132-137). -/
def set_size (b : Builder) (size : String) : Option PyErr × Builder :=
  if size ∉ sizeValues then (some (.invalidSize size), b)
  else (none, { b with size := some size })

/-- set_milk (src/main.py lines 139-144). -/
def set_milk (b : Builder) (milk : String) : Option PyErr × Builder :=
  if milk ∉ milkValues then (some (.invalidMilk milk), b)
  else (none, { b with milk := milk })

/-- add_syrup (src/main.py lines 146-151): the count check comes before the
insertion, and set.add of the lowercased name ignores duplicates. -/
def add_syrup (b : Builder) (name : String) : Option PyErr × Builder :=
  if MAX_SYRUPS ≤ b.syrups.length then (some .syrupLimit, b)
  else (none, { b with syrups := b.syrups.insert (pyLower name) })

/-- set_sugar (src/main.py lines 153-158): the chained comparison
0 <= teaspoons <= MAX_SUGAR guards the assignment. -/
def set_sugar (b : Builder) (teaspoons : ℤ) : Option PyErr × Builder :=
  if ¬ (0 ≤ teaspoons ∧ teaspoons ≤ MAX_SUGAR) then (some .sugarRange, b)
  else (none, { b with sugar := teaspoons })

/-- set_iced (src/main.py lines 160-163); the Python default argument True is
supplied by the caller here. Never raises. -/
def set_iced (b : Builder) (iced : Bool) : Option PyErr × Builder :=
  (none, { b with iced := iced })

/-- clear_extras (src/main.py lines 165-171): milk, syrups, sugar and iced
back to defaults, base and size untouched. Never raises. -/
def clear_extras (b : Builder) : Option PyErr × Builder :=
  (none, { b with milk := "none", syrups := [], sugar := 0, iced := false })

/-- Builder._calculate_price (src/main.py lines 173-194). Dict lookups are
association-list lookups; an absent key gives none (KeyError). -/
def calculate_price (b : Builder) : Option ℚ :=
  if optFalsy b.base || optFalsy b.size then some 0
  else do
    let base ← b.base
    let size ← b.size
    let p1 ← BASE_PRICES.lookup base
    let mult ← SIZE_MULTIPLIERS.lookup size
    let mp ← MILK_PRICES.lookup b.milk
    let price := p1 * mult + mp + (b.syrups.length : ℚ) * SYRUP_PRICE
    let price := if b.iced then price + ICED_PRICE else price
    some (round2 price)

/-- The milk_names dict of _generate_description (src/main.py lines 204-209). -/
def milk_names : List (String × String) :=
  [("whole", "цельное"), ("skim", "обезжиренное"), ("oat", "овсяное"), ("soy", "соевое")]

/-- The conditional expression choosing the sugar unit word
(src/main.py line 220). -/
def sugar_word (s : ℤ) : String :=
  if s = 1 then "ложка" else if 2 ≤ s ∧ s ≤ 4 then "ложки" else "ложек"

/-- Builder._generate_description (src/main.py lines 196-223): parts start as
[size, base] and conditional segments are appended, then joined by spaces. -/
def generate_description (b : Builder) : String :=
  if optFalsy b.base || optFalsy b.size then ""
  else
    let parts := [b.size.getD "", b.base.getD ""]
    let parts := if b.milk ≠ "none" then
        parts ++ ["с " ++ ((milk_names.lookup b.milk).getD b.milk) ++ " молоком"]
      else parts
    let parts := if b.syrups ≠ [] then
        parts ++ ["+ сиропы: " ++ joinSep ", " (sortStrings b.syrups)]
      else parts
    let parts := if b.iced then parts ++ ["(со льдом)"] else parts
    let parts := if 0 < b.sugar then
        parts ++ [toString b.sugar ++ " " ++ sugar_word b.sugar ++ " сахара"]
      else parts
    joinSep " " parts

/-- Builder.build (src/main.py lines 225-257): missing-field checks (base
first), the two defensive limit re-checks, then the CoffeeOrder snapshot with
the computed price and description and the sorted syrup tuple. -/
def build (b : Builder) : Except PyErr CoffeeOrder :=
  if optFalsy b.base then .error .missingBase
  else if optFalsy b.size then .error .missingSize
  else if MAX_SUGAR < b.sugar then .error .sugarLimitBuild
  else if MAX_SYRUPS < b.syrups.length then .error .syrupLimitBuild
  else
    match calculate_price b with
    | none => .error .keyError
    | some price =>
      .ok { base := b.base.getD "", size := b.size.getD "", milk := b.milk,
            syrups := sortStrings b.syrups, sugar := b.sugar, iced := b.iced,
            price := price, description := generate_description b }

/-- A call of build as seen by the caller of the mutable builder: the result
together with the builder state after the call. The method body contains no
assignment to self, so the state after the call is the receiver itself. -/
def buildCall (b : Builder) : Except PyErr CoffeeOrder × Builder := (build b, b)

/-- One public mutator call with its argument. -/
inductive Op where
  | setBaseOp (v : String)
  | setSizeOp (v : String)
  | setMilkOp (v : String)
  | addSyrupOp (v : String)
  | setSugarOp (n : ℤ)
  | setIcedOp (f : Bool)
  | clearExtrasOp
  | resetOp

/-- Dispatch of one mutator call on a builder state. -/
def applyOp (b : Builder) : Op → Option PyErr × Builder
  | .setBaseOp v => set_base b v
  | .setSizeOp v => set_size b v
  | .setMilkOp v => set_milk b v
  | .addSyrupOp v => add_syrup b v
  | .setSugarOp n => set_sugar b n
  | .setIcedOp f => set_iced b f
  | .clearExtrasOp => clear_extras b
  | .resetOp => reset b

/-- Builder states reachable from a fresh builder by successful public
mutator calls. -/
inductive Reachable : Builder → Prop where
  | init : Reachable Builder.init
  | step (b : Builder) (op : Op) (b2 : Builder) :
      Reachable b → applyOp b op = (none, b2) → Reachable b2

/-- The state invariant the setters maintain: sugar within bounds, at most
four syrups, milk drawn from the closed milk set. -/
def BuilderInv (b : Builder) : Prop :=
  0 ≤ b.sugar ∧ b.sugar ≤ 5 ∧ b.syrups.length ≤ 4 ∧ b.milk ∈ milkValues

/-- Generalization of set_sugar to an arbitrary numeric (rational) argument:
Python is dynamically typed, so the guard 0 <= teaspoons <= MAX_SUGAR of
src/main.py line 155 applies to any number, and the accepted value is stored
as is. Only the sugar field is affected by the method. -/
def set_sugarNum (sugar : ℚ) (teaspoons : ℚ) : Option PyErr × ℚ :=
  if ¬ (0 ≤ teaspoons ∧ teaspoons ≤ 5) then (some .sugarRange, sugar)
  else (none, teaspoons)

/-- Spec-side base price table, written from the words of the spec. -/
def basePriceSpec (s : String) : ℚ :=
  if s = "espresso" then 200 else if s = "americano" then 250
  else if s = "latte" then 300 else if s = "cappuccino" then 320 else 0

/-- Spec-side size multiplier table, written from the words of the spec. -/
def sizeMultiplierSpec (s : String) : ℚ :=
  if s = "small" then 1 else if s = "medium" then 6/5
  else if s = "large" then 7/5 else 0

/-- Spec-side milk price table, written from the words of the spec. -/
def milkPriceSpec (s : String) : ℚ :=
  if s = "none" then 0 else if s = "whole" then 30 else if s = "skim" then 30
  else if s = "oat" then 60 else if s = "soy" then 50 else 0

/-- Spec-side milk display name mapping with fallback to the raw value,
written from the words of the spec. -/
def milkNameSpec (s : String) : String :=
  if s = "whole" then "цельное" else if s = "skim" then "обезжиренное"
  else if s = "oat" then "овсяное" else if s = "soy" then "соевое" else s

/-- Spec-side sugar unit word, written from the words of the spec: ложка for
1, ложки for 2, 3 or 4, ложек for 5 (and for any other value, which the
claims never reach). -/
def sugarUnitSpec (s : ℤ) : String :=
  if s = 1 then "ложка" else if s = 2 ∨ s = 3 ∨ s = 4 then "ложки" else "ложек"

/-- Spec-side description: the space-join of the fixed-order segments as the
spec words them. -/
def descriptionSpec (b : Builder) : String :=
  match b.base, b.size with
  | some base, some size =>
      joinSep " "
        ([size ++ " " ++ base]
          ++ (if b.milk ≠ "none" then ["с " ++ milkNameSpec b.milk ++ " молоком"] else [])
          ++ (if b.syrups ≠ [] then
                ["+ сиропы: " ++ joinSep ", " (sortStrings b.syrups)] else [])
          ++ (if b.iced then ["(со льдом)"] else [])
          ++ (if 0 < b.sugar then
                [toString b.sugar ++ " " ++ sugarUnitSpec b.sugar ++ " сахара"] else []))
  | _, _ => ""

/-- Helper: a successful base price lookup pins the spec table value and
membership in the base enum. -/
lemma basePrice_lookup {s : String} {p : ℚ}
    (h : List.lookup s BASE_PRICES = some p) :
    basePriceSpec s = p ∧ s ∈ baseValues := by
  by_cases h1 : s = "espresso"
  · subst h1
    rw [show List.lookup "espresso" BASE_PRICES = some (200:ℚ) from rfl] at h
    injection h with h
    exact ⟨by rw [← h]; rfl, by decide⟩
  by_cases h2 : s = "americano"
  · subst h2
    rw [show List.lookup "americano" BASE_PRICES = some (250:ℚ) from rfl] at h
    injection h with h
    exact ⟨by rw [← h]; rfl, by decide⟩
  by_cases h3 : s = "latte"
  · subst h3
    rw [show List.lookup "latte" BASE_PRICES = some (300:ℚ) from rfl] at h
    injection h with h
    exact ⟨by rw [← h]; rfl, by decide⟩
  by_cases h4 : s = "cappuccino"
  · subst h4
    rw [show List.lookup "cappuccino" BASE_PRICES = some (320:ℚ) from rfl] at h
    injection h with h
    exact ⟨by rw [← h]; rfl, by decide⟩
  exfalso
  rw [BASE_PRICES] at h
  simp only [List.lookup, beq_eq_false_iff_ne.2 h1, beq_eq_false_iff_ne.2 h2,
    beq_eq_false_iff_ne.2 h3, beq_eq_false_iff_ne.2 h4] at h
  exact Option.noConfusion h

/-- Helper: a successful size multiplier lookup pins the spec table value and
membership in the size enum. -/
lemma sizeMult_lookup {s : String} {p : ℚ}
    (h : List.lookup s SIZE_MULTIPLIERS = some p) :
    sizeMultiplierSpec s = p ∧ s ∈ sizeValues := by
  by_cases h1 : s = "small"
  · subst h1
    rw [show List.lookup "small" SIZE_MULTIPLIERS = some (1:ℚ) from rfl] at h
    injection h with h
    exact ⟨by rw [← h]; rfl, by decide⟩
  by_cases h2 : s = "medium"
  · subst h2
    rw [show List.lookup "medium" SIZE_MULTIPLIERS = some (6/5:ℚ) from rfl] at h
    injection h with h
    exact ⟨by rw [← h]; rfl, by decide⟩
  by_cases h3 : s = "large"
  · subst h3
    rw [show List.lookup "large" SIZE_MULTIPLIERS = some (7/5:ℚ) from rfl] at h
    injection h with h
    exact ⟨by rw [← h]; rfl, by decide⟩
  exfalso
  rw [SIZE_MULTIPLIERS] at h
  simp only [List.lookup, beq_eq_false_iff_ne.2 h1, beq_eq_false_iff_ne.2 h2,
    beq_eq_false_iff_ne.2 h3] at h
  exact Option.noConfusion h

/-- Helper: a successful milk price lookup pins the spec table value and
membership in the milk enum. -/
lemma milkPrice_lookup {s : String} {p : ℚ}
    (h : List.lookup s MILK_PRICES = some p) :
    milkPriceSpec s = p ∧ s ∈ milkValues := by
  by_cases h1 : s = "none"
  · subst h1
    rw [show List.lookup "none" MILK_PRICES = some (0:ℚ) from rfl] at h
    injection h with h
    exact ⟨by rw [← h]; rfl, by decide⟩
  by_cases h2 : s = "whole"
  · subst h2
    rw [show List.lookup "whole" MILK_PRICES = some (30:ℚ) from rfl] at h
    injection h with h
    exact ⟨by rw [← h]; rfl, by decide⟩
  by_cases h3 : s = "skim"
  · subst h3
    rw [show List.lookup "skim" MILK_PRICES = some (30:ℚ) from rfl] at h
    injection h with h
    exact ⟨by rw [← h]; rfl, by decide⟩
  by_cases h4 : s = "oat"
  · subst h4
    rw [show List.lookup "oat" MILK_PRICES = some (60:ℚ) from rfl] at h
    injection h with h
    exact ⟨by rw [← h]; rfl, by decide⟩
  by_cases h5 : s = "soy"
  · subst h5
    rw [show List.lookup "soy" MILK_PRICES = some (50:ℚ) from rfl] at h
    injection h with h
    exact ⟨by rw [← h]; rfl, by decide⟩
  exfalso
  rw [MILK_PRICES] at h
  simp only [List.lookup, beq_eq_false_iff_ne.2 h1, beq_eq_false_iff_ne.2 h2,
    beq_eq_false_iff_ne.2 h3, beq_eq_false_iff_ne.2 h4, beq_eq_false_iff_ne.2 h5] at h
  exact Option.noConfusion h

/-- Helper: a successful build fixes the field checks, carries the computed
price and carries the generated description. -/
lemma build_ok_fields {b : Builder} {o : CoffeeOrder} (h : build b = .ok o) :
    optFalsy b.base = false ∧ optFalsy b.size = false
    ∧ calculate_price b = some o.price
    ∧ o.description = generate_description b := by
  rw [build] at h
  by_cases h1 : optFalsy b.base = true
  · rw [if_pos h1] at h; exact absurd h (by simp)
  · rw [if_neg h1] at h
    by_cases h2 : optFalsy b.size = true
    · rw [if_pos h2] at h; exact absurd h (by simp)
    · rw [if_neg h2] at h
      by_cases h3 : MAX_SUGAR < b.sugar
      · rw [if_pos h3] at h; exact absurd h (by simp)
      · rw [if_neg h3] at h
        by_cases h4 : MAX_SYRUPS < b.syrups.length
        · rw [if_pos h4] at h; exact absurd h (by simp)
        · rw [if_neg h4] at h
          cases hcp : calculate_price b with
          | none => rw [hcp] at h; exact absurd h (by simp)
          | some p =>
            rw [hcp] at h
            injection h with h
            subst h
            exact ⟨by simpa using h1, by simpa using h2, rfl, rfl⟩

/-- Helper: a successful price computation decomposes into the three table
lookups and the rounded linear formula. -/
lemma calc_price_spec {b : Builder} {p : ℚ}
    (h : calculate_price b = some p) (h1 : optFalsy b.base = false)
    (h2 : optFalsy b.size = false) :
    ∃ bs sz bp m mp, b.base = some bs ∧ b.size = some sz
      ∧ List.lookup bs BASE_PRICES = some bp
      ∧ List.lookup sz SIZE_MULTIPLIERS = some m
      ∧ List.lookup b.milk MILK_PRICES = some mp
      ∧ p = round2 (bp * m + mp + (b.syrups.length : ℚ) * SYRUP_PRICE
            + (if b.iced then ICED_PRICE else 0)) := by
  rw [calculate_price] at h
  rw [if_neg (by rw [h1, h2]; simp)] at h
  cases hb : b.base with
  | none => rw [hb] at h1; simp [optFalsy] at h1
  | some bs =>
    cases hsz : b.size with
    | none => rw [hsz] at h2; simp [optFalsy] at h2
    | some sz =>
      rw [hb, hsz] at h
      simp only [Option.bind_eq_bind, Option.some_bind] at h
      cases hbp : List.lookup bs BASE_PRICES with
      | none => rw [hbp] at h; simp at h
      | some bp =>
        rw [hbp] at h
        simp only [Option.some_bind] at h
        cases hm : List.lookup sz SIZE_MULTIPLIERS with
        | none => rw [hm] at h; simp at h
        | some m =>
          rw [hm] at h
          simp only [Option.some_bind] at h
          cases hmp : List.lookup b.milk MILK_PRICES with
          | none => rw [hmp] at h; simp at h
          | some mp =>
            rw [hmp] at h
            simp only [Option.some_bind, Option.some_inj] at h
            refine ⟨bs, sz, bp, m, mp, rfl, rfl, hbp, hm, rfl, ?_⟩
            rw [← h]
            cases hi : b.iced
            · simp only [Bool.false_eq_true, if_false]
              rw [add_zero]
            · simp only [if_true]

/-- C1: the price of every built order is the rounded value of
basePrice[base] × sizeMultiplier[size] + milkPrice[milk] + syrupCount × 40
+ (0.2 if iced), with the spec tables; with default extras it is the rounded
base-times-multiplier product; and the concrete iced cappuccino scenario with
two syrups prices at 528.2. -/
theorem price_formula :
    (∀ (b : Builder) (o : CoffeeOrder) (bs sz : String),
        b.base = some bs → b.size = some sz → build b = .ok o →
        o.price = round2 (basePriceSpec bs * sizeMultiplierSpec sz
          + milkPriceSpec b.milk + (b.syrups.length : ℚ) * 40
          + (if b.iced then (0.2 : ℚ) else 0)))
    ∧ (∀ bs sz : String, bs ∈ baseValues → sz ∈ sizeValues →
        ∃ o, build { Builder.init with base := some bs, size := some sz } = .ok o
          ∧ o.price = round2 (basePriceSpec bs * sizeMultiplierSpec sz))
    ∧ (∃ o, build ⟨some "cappuccino", some "large", "none", ["карамель", "ваниль"], 0, true⟩
          = .ok o ∧ o.price = (528.2 : ℚ)) := by
  refine ⟨?_, ?_, ?_⟩
  · intro b o bs sz hb hsz hok
    obtain ⟨hf1, hf2, hcp, -⟩ := build_ok_fields hok
    obtain ⟨bs1, sz1, bp, m, mp, hb1, hsz1, hbp, hm, hmp, hp⟩ := calc_price_spec hcp hf1 hf2
    rw [hb] at hb1
    injection hb1 with hb1
    rw [hsz] at hsz1
    injection hsz1 with hsz1
    subst hb1
    subst hsz1
    rw [hp]
    rw [(basePrice_lookup hbp).1, (sizeMult_lookup hm).1, (milkPrice_lookup hmp).1]
    congr 1
    simp only [SYRUP_PRICE, ICED_PRICE]
    cases b.iced <;> norm_num
  · intro bs sz hbs hsz
    have hbne : (bs == "") = false := by fin_cases hbs <;> rfl
    have hsne : (sz == "") = false := by fin_cases hsz <;> rfl
    have hlb : List.lookup bs BASE_PRICES = some (basePriceSpec bs) := by
      fin_cases hbs <;> rfl
    have hls : List.lookup sz SIZE_MULTIPLIERS = some (sizeMultiplierSpec sz) := by
      fin_cases hsz <;> rfl
    have hcp : calculate_price { Builder.init with base := some bs, size := some sz }
        = some (round2 (basePriceSpec bs * sizeMultiplierSpec sz)) := by
      rw [calculate_price]
      rw [if_neg (by simp [optFalsy, Builder.init, hbne, hsne])]
      simp only [Builder.init, Option.bind_eq_bind, Option.some_bind, hlb, hls,
        show List.lookup "none" MILK_PRICES = some (0:ℚ) from rfl]
      norm_num [SYRUP_PRICE]
    refine ⟨⟨bs, sz, "none", [], 0, false,
        round2 (basePriceSpec bs * sizeMultiplierSpec sz),
        generate_description { Builder.init with base := some bs, size := some sz }⟩,
      ?_, rfl⟩
    rw [build]
    rw [if_neg (by simp [optFalsy, Builder.init, hbne])]
    rw [if_neg (by simp [optFalsy, Builder.init, hsne])]
    rw [if_neg (by rw [MAX_SUGAR]; simp [Builder.init])]
    rw [if_neg (by rw [MAX_SYRUPS]; simp [Builder.init])]
    rw [hcp]
    rfl
  · have hcalc : calculate_price
        ⟨some "cappuccino", some "large", "none", ["карамель", "ваниль"], 0, true⟩
        = some (528.2 : ℚ) := by
      rw [calculate_price, if_neg (by decide)]
      simp only [Option.bind_eq_bind, Option.some_bind,
        show List.lookup "cappuccino" BASE_PRICES = some (320:ℚ) from rfl,
        show List.lookup "large" SIZE_MULTIPLIERS = some (7/5:ℚ) from rfl,
        show List.lookup "none" MILK_PRICES = some (0:ℚ) from rfl]
      norm_num [SYRUP_PRICE, ICED_PRICE, round2, roundHalfEven]
    refine ⟨⟨"cappuccino", "large", "none", sortStrings ["карамель", "ваниль"], 0, true,
        528.2, generate_description
          ⟨some "cappuccino", some "large", "none", ["карамель", "ваниль"], 0, true⟩⟩,
      ?_, rfl⟩
    rw [build]
    rw [if_neg (by decide)]
    rw [if_neg (by decide)]
    rw [if_neg (by decide)]
    rw [if_neg (by decide)]
    rw [hcalc]
    rfl

/-- C1 witness: espresso small with default extras builds, and its price is
the rounded base-times-multiplier product. -/
theorem price_formula_witness :
    "espresso" ∈ baseValues ∧ "small" ∈ sizeValues
    ∧ ∃ o, build { Builder.init with base := some "espresso", size := some "small" } = .ok o
        ∧ o.price = round2 (basePriceSpec "espresso" * sizeMultiplierSpec "small") :=
  ⟨by decide, by decide, price_formula.2.1 "espresso" "small" (by decide) (by decide)⟩

/-- Helper: string append is associative. -/
lemma strAppend_assoc (a b c : String) : a ++ b ++ c = a ++ (b ++ c) := by
  cases a with | mk la => cases b with | mk lb => cases c with | mk lc =>
  show String.mk ((la ++ lb) ++ lc) = String.mk (la ++ (lb ++ lc))
  rw [List.append_assoc]

/-- Helper: joining two leading segments with the separator equals joining
their concatenation. -/
lemma join2 (a b : String) (r : List String) :
    joinSep " " (a :: b :: r) = joinSep " " ((a ++ " " ++ b) :: r) := by
  cases r with
  | nil => rfl
  | cons x xs =>
    show a ++ " " ++ (b ++ " " ++ joinSep " " (x :: xs))
      = a ++ " " ++ b ++ " " ++ joinSep " " (x :: xs)
    rw [strAppend_assoc (a ++ " " ++ b), strAppend_assoc (a ++ " "), strAppend_assoc b]

/-- Helper: the milk_names dict lookup with fallback agrees with the spec
mapping everywhere. -/
lemma milkName_get (m : String) :
    (milk_names.lookup m).getD m = milkNameSpec m := by
  by_cases h1 : m = "whole"
  · subst h1; rfl
  by_cases h2 : m = "skim"
  · subst h2; rfl
  by_cases h3 : m = "oat"
  · subst h3; rfl
  by_cases h4 : m = "soy"
  · subst h4; rfl
  rw [milk_names]
  simp only [List.lookup, beq_eq_false_iff_ne.2 h1, beq_eq_false_iff_ne.2 h2,
    beq_eq_false_iff_ne.2 h3, beq_eq_false_iff_ne.2 h4]
  rw [milkNameSpec, if_neg h1, if_neg h2, if_neg h3, if_neg h4]
  rfl

/-- Helper: the conditional sugar unit word of the source equals the spec
wording at every integer. -/
lemma sugar_word_eq (s : ℤ) : sugar_word s = sugarUnitSpec s := by
  rw [sugar_word, sugarUnitSpec]
  split_ifs <;> first | rfl | omega

/-- C2: the description of every built order is the space-join, in the fixed
order, of the size-base segment, the optional milk segment with the mapped
milk name, the optional sorted comma-joined syrup segment, the optional iced
literal, and the optional pluralized sugar segment. -/
theorem description_assembly (b : Builder) (bs sz : String) (o : CoffeeOrder)
    (hb : b.base = some bs) (hsz : b.size = some sz) (hok : build b = .ok o) :
    o.description = descriptionSpec b := by
  obtain ⟨hf1, hf2, -, hdesc⟩ := build_ok_fields hok
  rw [hdesc, generate_description, descriptionSpec]
  rw [if_neg (by rw [hf1, hf2]; simp)]
  rw [hb, hsz]
  dsimp only
  rw [milkName_get b.milk, sugar_word_eq b.sugar]
  split_ifs <;>
    · simp only [Option.getD_some, List.cons_append, List.nil_append, List.append_nil]
      rw [join2]

/-- C2 witness: a built espresso small with default extras has description
equal to the spec assembly for its builder state. -/
theorem description_assembly_witness :
    ({ base := "espresso", size := "small", milk := "none", syrups := [], sugar := 0,
       iced := false, price := 200, description := "small espresso" } : CoffeeOrder).description
      = descriptionSpec ⟨some "espresso", some "small", "none", [], 0, false⟩ := by
  have hcalc : calculate_price ⟨some "espresso", some "small", "none", [], 0, false⟩
      = some (200 : ℚ) := by
    rw [calculate_price, if_neg (by decide)]
    simp only [Option.bind_eq_bind, Option.some_bind,
      show List.lookup "espresso" BASE_PRICES = some (200:ℚ) from rfl,
      show List.lookup "small" SIZE_MULTIPLIERS = some (1:ℚ) from rfl,
      show List.lookup "none" MILK_PRICES = some (0:ℚ) from rfl]
    norm_num [SYRUP_PRICE, round2, roundHalfEven]
  have hok : build ⟨some "espresso", some "small", "none", [], 0, false⟩
      = .ok { base := "espresso", size := "small", milk := "none", syrups := [], sugar := 0,
              iced := false, price := 200, description := "small espresso" } := by
    rw [build, if_neg (by decide), if_neg (by decide), if_neg (by decide), if_neg (by decide),
      hcalc]
    rfl
  exact description_assembly _ "espresso" "small" _ rfl rfl hok

/-- C3: with four distinct syrups present add_syrup always fails (even for a
duplicate); below four, a duplicate of the lowercased name is a silent no-op,
and otherwise the lowercased name is inserted. -/
theorem add_syrup_limit_and_dedup (b : Builder) (name : String) :
    (b.syrups.length = 4 → add_syrup b name = (some .syrupLimit, b))
    ∧ (b.syrups.length < 4 → pyLower name ∈ b.syrups → add_syrup b name = (none, b))
    ∧ (b.syrups.length < 4 → pyLower name ∉ b.syrups →
        add_syrup b name = (none, { b with syrups := pyLower name :: b.syrups })) := by
  refine ⟨fun h => ?_, fun h hm => ?_, fun h hm => ?_⟩
  · rw [add_syrup, if_pos (by rw [MAX_SYRUPS]; omega)]
  · rw [add_syrup, if_neg (by rw [MAX_SYRUPS]; omega)]
    rw [List.insert_of_mem hm]
  · rw [add_syrup, if_neg (by rw [MAX_SYRUPS]; omega)]
    rw [List.insert_of_not_mem hm]

/-- C3 witness: at four syrups a duplicate add fails; below four it is a
no-op; a genuinely new name is inserted lowercased. -/
theorem add_syrup_limit_and_dedup_witness :
    (["a", "b", "c", "d"] : List String).length = 4
    ∧ add_syrup { Builder.init with syrups := ["a", "b", "c", "d"] } "a"
        = (some .syrupLimit, { Builder.init with syrups := ["a", "b", "c", "d"] })
    ∧ add_syrup { Builder.init with syrups := ["a"] } "a"
        = (none, { Builder.init with syrups := ["a"] }) :=
  ⟨by decide,
   (add_syrup_limit_and_dedup { Builder.init with syrups := ["a", "b", "c", "d"] } "a").1
     (by decide),
   (add_syrup_limit_and_dedup { Builder.init with syrups := ["a"] } "a").2.1
     (by decide) (by decide)⟩

/-- C4: build reports a missing base first (also when both base and size are
missing), and with base present but size missing it fails with the
size-missing error, whose message is distinct from the base one and
references size. -/
theorem build_missing_field (b : Builder) :
    (b.base = none → build b = .error .missingBase)
    ∧ (∀ bs, b.base = some bs → bs ≠ "" → b.size = none → build b = .error .missingSize)
    ∧ pyMessage .missingBase ≠ pyMessage .missingSize
    ∧ pyMessage .missingSize = "Не указан размер кофе (size)" := by
  refine ⟨fun h => ?_, fun bs hb hbs hs => ?_, by decide, rfl⟩
  · rw [build, if_pos (by rw [h]; rfl)]
  · rw [build, if_neg (by simp [hb, optFalsy, hbs]), if_pos (by rw [hs]; rfl)]

/-- C4 witness: a fresh builder with only base set fails with the
size-missing error. -/
theorem build_missing_field_witness :
    build { Builder.init with base := some "latte" } = .error .missingSize
    ∧ build Builder.init = .error .missingBase :=
  ⟨(build_missing_field { Builder.init with base := some "latte" }).2.1 "latte" rfl
     (by decide) rfl,
   (build_missing_field Builder.init).1 rfl⟩

/-- C5: a failed mutator call returns the builder state unchanged (each
method validates before it mutates), and a build call never changes the
builder state, so two consecutive builds of the same builder agree. -/
theorem calls_atomic :
    (∀ (b : Builder) (op : Op) (e : PyErr) (b2 : Builder),
        applyOp b op = (some e, b2) → b2 = b)
    ∧ (∀ b : Builder, (buildCall b).2 = b)
    ∧ (∀ b : Builder, (buildCall b).1 = (buildCall (buildCall b).2).1) := by
  refine ⟨?_, fun _ => rfl, fun _ => rfl⟩
  intro b op e b2 h
  cases op with
  | setBaseOp v => rw [applyOp, set_base] at h; split at h <;> simp_all
  | setSizeOp v => rw [applyOp, set_size] at h; split at h <;> simp_all
  | setMilkOp v => rw [applyOp, set_milk] at h; split at h <;> simp_all
  | addSyrupOp v => rw [applyOp, add_syrup] at h; split at h <;> simp_all
  | setSugarOp n => rw [applyOp, set_sugar] at h; split at h <;> simp_all
  | setIcedOp f => rw [applyOp, set_iced] at h; simp_all
  | clearExtrasOp => rw [applyOp, clear_extras] at h; simp_all
  | resetOp => rw [applyOp, reset] at h; simp_all

/-- C5 witness: a rejected set_sugar call leaves a builder with prior sugar 3
unchanged. -/
theorem calls_atomic_witness :
    applyOp { Builder.init with sugar := 3 } (.setSugarOp 7)
      = (some .sugarRange, { Builder.init with sugar := 3 })
    ∧ { Builder.init with sugar := 3 } = { Builder.init with sugar := 3 } :=
  ⟨by decide,
   calls_atomic.1 { Builder.init with sugar := 3 } (.setSugarOp 7) .sugarRange
     { Builder.init with sugar := 3 } (by decide)⟩

/-- C6: set_sugar succeeds exactly on the integers 0..5, storing the value,
and otherwise fails with the range error leaving the builder (and so its
sugar field) unchanged. -/
theorem set_sugar_exact_range (b : Builder) (t : ℤ) :
    ((0 ≤ t ∧ t ≤ 5) → set_sugar b t = (none, { b with sugar := t }))
    ∧ (¬ (0 ≤ t ∧ t ≤ 5) → set_sugar b t = (some .sugarRange, b)) := by
  refine ⟨fun h => ?_, fun h => ?_⟩
  · rw [set_sugar, if_neg (by rw [MAX_SUGAR]; omega)]
  · rw [set_sugar, if_pos (by rw [MAX_SUGAR]; omega)]

/-- C6 witness: set_sugar 6 on a builder with sugar 2 fails and keeps
sugar 2; set_sugar 4 succeeds and stores 4. -/
theorem set_sugar_exact_range_witness :
    set_sugar { Builder.init with sugar := 2 } 6
      = (some .sugarRange, { Builder.init with sugar := 2 })
    ∧ set_sugar Builder.init 4 = (none, { Builder.init with sugar := 4 }) :=
  ⟨(set_sugar_exact_range { Builder.init with sugar := 2 } 6).2 (by decide),
   (set_sugar_exact_range Builder.init 4).1 (by decide)⟩

/-- C8: clear_extras resets milk, syrups, sugar and iced to their defaults,
preserves base and size exactly, and returns the builder without an error. -/
theorem clear_extras_frame (b : Builder) :
    clear_extras b = (none,
      { base := b.base, size := b.size, milk := "none", syrups := [],
        sugar := 0, iced := false }) := rfl

/-- C9: the rendering of an order is its stored description when non-empty,
else the fallback text assembled from size, base and price. -/
theorem pyStr_fallback (o : CoffeeOrder) :
    (o.description ≠ "" → o.pyStr = o.description)
    ∧ (o.description = "" →
        o.pyStr = o.size ++ " " ++ o.base ++ " - " ++ floatRepr o.price ++ "₽") := by
  refine ⟨fun h => ?_, fun h => ?_⟩ <;> simp [CoffeeOrder.pyStr, h]

/-- C9 witness: an order with empty description renders as the fallback with
the price, one with a description renders the description. -/
theorem pyStr_fallback_witness :
    ({ base := "espresso", size := "small" } : CoffeeOrder).pyStr
      = "small espresso - 0.0₽"
    ∧ ({ base := "espresso", size := "small", description := "d" } : CoffeeOrder).pyStr
      = "d" := by
  constructor
  · have h := (pyStr_fallback { base := "espresso", size := "small" }).2 rfl
    simpa [floatRepr] using h
  · exact (pyStr_fallback { base := "espresso", size := "small", description := "d" }).1
      (by decide)

/-- C10: the set_sugar guard is the pure bound check on any numeric argument,
with no integrality requirement: it fails exactly on values below 0 or above
5, and an accepted value, such as 2.5, is stored as the sugar value. -/
theorem set_sugar_numeric_guard (s t : ℚ) :
    ((set_sugarNum s t).1 ≠ none ↔ (t < 0 ∨ 5 < t))
    ∧ (¬ (t < 0 ∨ 5 < t) → set_sugarNum s t = (none, t))
    ∧ set_sugarNum s (5/2) = (none, 5/2) := by
  have hdir : ¬ (0 ≤ t ∧ t ≤ 5) → (t < 0 ∨ 5 < t) := by
    intro h
    rcases lt_or_le t 0 with h0 | h0
    · exact .inl h0
    · refine .inr ?_
      by_contra h5
      push_neg at h5
      exact h ⟨h0, h5⟩
  have hrev : (t < 0 ∨ 5 < t) → ¬ (0 ≤ t ∧ t ≤ 5) := by
    rintro (h | h) ⟨h1, h2⟩ <;> linarith
  refine ⟨?_, fun h => ?_, ?_⟩
  · by_cases hc : 0 ≤ t ∧ t ≤ 5
    · rw [set_sugarNum, if_neg (not_not_intro hc)]
      exact ⟨fun hne => absurd rfl hne, fun hor => absurd hc (hrev hor)⟩
    · rw [set_sugarNum, if_pos hc]
      exact ⟨fun _ => hdir hc, fun _ h2 => Option.noConfusion h2⟩
  · have hc : (0:ℚ) ≤ t ∧ t ≤ 5 := by
      push_neg at h
      exact ⟨h.1, h.2⟩
    rw [set_sugarNum, if_neg (not_not_intro hc)]
  · have hc : (0:ℚ) ≤ 5/2 ∧ (5:ℚ)/2 ≤ 5 := by norm_num
    rw [set_sugarNum, if_neg (not_not_intro hc)]

/-- Helper: every state reachable by successful mutator calls satisfies the
builder invariant. -/
lemma reachable_inv {b : Builder} (h : Reachable b) : BuilderInv b := by
  induction h with
  | init => exact ⟨by decide, by decide, by decide, by decide⟩
  | step b op b2 hr heq ih =>
    cases op with
    | setBaseOp v =>
      rw [applyOp, set_base] at heq
      by_cases hv : v ∉ baseValues
      · rw [if_pos hv] at heq; simp at heq
      · rw [if_neg hv] at heq
        injection heq with h1 h2
        subst h2
        exact ⟨ih.1, ih.2.1, ih.2.2.1, ih.2.2.2⟩
    | setSizeOp v =>
      rw [applyOp, set_size] at heq
      by_cases hv : v ∉ sizeValues
      · rw [if_pos hv] at heq; simp at heq
      · rw [if_neg hv] at heq
        injection heq with h1 h2
        subst h2
        exact ⟨ih.1, ih.2.1, ih.2.2.1, ih.2.2.2⟩
    | setMilkOp v =>
      rw [applyOp, set_milk] at heq
      by_cases hv : v ∉ milkValues
      · rw [if_pos hv] at heq; simp at heq
      · rw [if_neg hv] at heq
        injection heq with h1 h2
        subst h2
        exact ⟨ih.1, ih.2.1, ih.2.2.1, not_not.1 hv⟩
    | addSyrupOp v =>
      rw [applyOp, add_syrup] at heq
      by_cases hl : MAX_SYRUPS ≤ b.syrups.length
      · rw [if_pos hl] at heq; simp at heq
      · rw [if_neg hl] at heq
        injection heq with h1 h2
        subst h2
        refine ⟨ih.1, ih.2.1, ?_, ih.2.2.2⟩
        have hl3 : b.syrups.length ≤ 3 := by
          rw [MAX_SYRUPS] at hl; omega
        show (b.syrups.insert (pyLower v)).length ≤ 4
        by_cases hm : pyLower v ∈ b.syrups
        · rw [List.insert_of_mem hm]; exact ih.2.2.1
        · rw [List.insert_of_not_mem hm, List.length_cons]; omega
    | setSugarOp n =>
      rw [applyOp, set_sugar] at heq
      by_cases hn : 0 ≤ n ∧ n ≤ MAX_SUGAR
      · rw [if_neg (not_not_intro hn)] at heq
        injection heq with h1 h2
        subst h2
        refine ⟨hn.1, ?_, ih.2.2.1, ih.2.2.2⟩
        have h5 := hn.2
        rw [MAX_SUGAR] at h5
        exact h5
      · rw [if_pos hn] at heq; simp at heq
    | setIcedOp f =>
      rw [applyOp, set_iced] at heq
      injection heq with h1 h2
      subst h2
      exact ⟨ih.1, ih.2.1, ih.2.2.1, ih.2.2.2⟩
    | clearExtrasOp =>
      rw [applyOp, clear_extras] at heq
      injection heq with h1 h2
      subst h2
      exact ⟨le_refl 0, by norm_num, by simp, by simp [milkValues]⟩
    | resetOp =>
      rw [applyOp, reset] at heq
      injection heq with h1 h2
      subst h2
      exact ⟨by decide, by decide, by decide, by decide⟩

/-- Helper: under the invariant, build never returns either of the two
defensive limit errors. -/
lemma build_no_limit (b : Builder) (inv : BuilderInv b) :
    build b ≠ .error .sugarLimitBuild ∧ build b ≠ .error .syrupLimitBuild := by
  rw [build]
  by_cases h1 : optFalsy b.base = true
  · rw [if_pos h1]; exact ⟨by simp, by simp⟩
  · rw [if_neg h1]
    by_cases h2 : optFalsy b.size = true
    · rw [if_pos h2]; exact ⟨by simp, by simp⟩
    · rw [if_neg h2]
      rw [if_neg (show ¬ MAX_SUGAR < b.sugar by
        rw [MAX_SUGAR]; have := inv.2.1; omega)]
      rw [if_neg (show ¬ MAX_SYRUPS < b.syrups.length by
        rw [MAX_SYRUPS]; have := inv.2.2.1; omega)]
      cases hcp : calculate_price b with
      | none => exact ⟨by simp, by simp⟩
      | some p => exact ⟨by simp, by simp⟩

/-- C7: every builder reachable from a fresh builder by successful public
operations has sugar in 0..5, at most four syrups and a milk value from the
closed milk set, and on such a builder the defensive limit re-checks in build
never fire. -/
theorem reachable_invariant (b : Builder) (h : Reachable b) :
    BuilderInv b
    ∧ build b ≠ .error .sugarLimitBuild
    ∧ build b ≠ .error .syrupLimitBuild := by
  have inv := reachable_inv h
  exact ⟨inv, build_no_limit b inv⟩

/-- C7 witness: the fresh builder is reachable and satisfies the invariant,
and its build does not fail with a limit error. -/
theorem reachable_invariant_witness :
    BuilderInv Builder.init
    ∧ build Builder.init ≠ .error .sugarLimitBuild
    ∧ build Builder.init ≠ .error .syrupLimitBuild :=
  reachable_invariant Builder.init Reachable.init

/-- C10 witness: 2.5 is accepted and stored even though it is not an
integer. -/
theorem set_sugar_numeric_guard_witness :
    set_sugarNum 0 (5/2) = (none, 5/2)
    ∧ ¬ ((5/2 : ℚ) < 0 ∨ (5 : ℚ) < 5/2) :=
  ⟨(set_sugar_numeric_guard 0 (5/2)).2.1 (by norm_num), by norm_num⟩

end Coffee
